import Mathlib

set_option maxRecDepth 4000

/-!
Shallow embedding of the data-access core of the go-modular repository:
error taxonomy (pkg/database errors), the transaction coordinator
(pkg/database/transaction.go), the generic base repository
(pkg/database/repository.go), the user repository (conditional update with
optimistic-lock disambiguation, filter building, error translation), the
migration manager (pkg/database/migration_utils.go) and the query builder
(pkg/database/queryBuilder.go).  Go machine integers that appear (row counts,
versions) are modelled as Int/Nat; fallible driver calls are modelled with
Except/Option.
-/

/-- Sentinel error kinds declared as package-level errors.New values in
pkg/database (part_008 of the source): NotFound, DuplicateKey,
ForeignKeyViolation, OptimisticLock, ConnectionFailed, TransactionFailed,
InvalidInput. -/
inductive SentinelKind where
  | notFound
  | duplicateKey
  | foreignKeyViolation
  | optimisticLock
  | connectionFailed
  | transactionFailed
  | invalidInput
deriving DecidableEq

/-- Go error values as they occur in this code base.  `sentinel` is one of the
seven errors.New sentinels; `base` is any other plain error (identified here
by its message); `sqlNoRows` is the sql.ErrNoRows sentinel; `pqError` is a
lib/pq *pq.Error with its Code and Detail fields; `wrapf` is fmt.Errorf with
a trailing %w (message plus wrapped error); `dbe` is the DatabaseError struct
with Op, Table, Code, Message and the wrapped Err. -/
inductive GoError where
  | sentinel (k : SentinelKind)
  | base (msg : String)
  | sqlNoRows
  | pqError (code detail : String)
  | wrapf (msg : String) (inner : GoError)
  | dbe (op table code msg : String) (inner : GoError)
deriving DecidableEq

def ErrNotFound : GoError := .sentinel .notFound

def ErrDuplicateKey : GoError := .sentinel .duplicateKey

def ErrForeignKeyViolation : GoError := .sentinel .foreignKeyViolation

def ErrOptimisticLock : GoError := .sentinel .optimisticLock

def ErrConnectionFailed : GoError := .sentinel .connectionFailed

def ErrTransactionFailed : GoError := .sentinel .transactionFailed

def ErrInvalidInput : GoError := .sentinel .invalidInput

/-- The Error() message of each modelled Go error, mirroring the Error methods
in the source (DatabaseError.Error uses Message when non-empty, otherwise the
wrapped error's message). -/
def GoError.message : GoError → String
  | .sentinel .notFound => "entity not found"
  | .sentinel .duplicateKey => "duplicate key violation"
  | .sentinel .foreignKeyViolation => "foreign key constraint violation"
  | .sentinel .optimisticLock => "optimistic locking conflict"
  | .sentinel .connectionFailed => "database connection failed"
  | .sentinel .transactionFailed => "transaction failed"
  | .sentinel .invalidInput => "invalid input"
  | .base m => m
  | .sqlNoRows => "sql: no rows in result set"
  | .pqError code _ => "pq: " ++ code
  | .wrapf m _ => m
  | .dbe op table _ m inner =>
      if m ≠ "" then "database error in " ++ op ++ " on table " ++ table ++ ": " ++ m
      else "database error in " ++ op ++ " on table " ++ table ++ ": " ++ inner.message

/-- errors.Is over the modelled errors: equality at each level of the unwrap
chain.  DatabaseError contributes both an Unwrap and an Is method, and both
delegate to the wrapped Err, so a single recursion covers them.  fmt.Errorf
with %w contributes an Unwrap. -/
def errorsIsB (e target : GoError) : Bool :=
  if e = target then true
  else
    match e with
    | .wrapf _ inner => errorsIsB inner target
    | .dbe _ _ _ _ inner => errorsIsB inner target
    | _ => false

/-- NewDatabaseError from the source: DatabaseError with only Op, Table and
the wrapped error set. -/
def NewDatabaseError (op table : String) (err : GoError) : GoError :=
  .dbe op table "" "" err

/-- NewDatabaseErrorWithCode from the source. -/
def NewDatabaseErrorWithCode (op table code msg : String) (err : GoError) : GoError :=
  .dbe op table code msg err

/-- Substring test on character lists (strings.Contains). -/
def hasSubList (hay needle : List Char) : Bool :=
  needle.isPrefixOf hay ||
    match hay with
    | [] => false
    | _ :: t => hasSubList t needle

/-- strings.Contains. -/
def strContains (s sub : String) : Bool := hasSubList s.data sub.data

/-- handleError of the user repository (part_003 of the source): translate a
native error into the domain taxonomy.  A *pq.Error is dispatched on its
Code (23505 unique violation, with a special message when the Detail mentions
email; 23503 foreign key; 23514 check violation); any other pq code falls
through the switch to the common handling.  sql.ErrNoRows (compared by
identity in Go) becomes the bare ErrNotFound sentinel; everything else is
wrapped in NewDatabaseError(op, "users", err). -/
def handleError (operation : String) (err : Option GoError) : Option GoError :=
  match err with
  | none => none
  | some e =>
    some (
      match e with
      | .pqError code detail =>
        if code = "23505" then
          if strContains detail "email" then
            NewDatabaseErrorWithCode operation "users" "23505" "email already exists" ErrDuplicateKey
          else
            NewDatabaseErrorWithCode operation "users" "23505" "duplicate key violation" ErrDuplicateKey
        else if code = "23503" then
          NewDatabaseErrorWithCode operation "users" "23503" "foreign key constraint violation" ErrForeignKeyViolation
        else if code = "23514" then
          NewDatabaseErrorWithCode operation "users" "23514" "check constraint violation" ErrInvalidInput
        else
          NewDatabaseError operation "users" e
      | .sqlNoRows => ErrNotFound
      | _ => NewDatabaseError operation "users" e)

/-- The kinds of the error taxonomy, in declaration order. -/
def allKinds : List SentinelKind :=
  [.notFound, .duplicateKey, .foreignKeyViolation, .optimisticLock,
   .connectionFailed, .transactionFailed, .invalidInput]

/-- The sentinel kinds an error matches under kind-based equality
(errors.Is against each sentinel). -/
def matchedKinds (e : GoError) : List SentinelKind :=
  allKinds.filter (fun k => errorsIsB e (.sentinel k))

/-- Whether an error is the DatabaseError struct (and hence records an
operation and a table). -/
def isDbeB : GoError → Bool
  | .dbe _ _ _ _ _ => true
  | _ => false

/-- Whether an error is one a native driver surfaces directly: a *pq.Error,
the sql.ErrNoRows sentinel, or a plain driver-level error. -/
def isNativeDriver : GoError → Bool
  | .pqError _ _ => true
  | .sqlNoRows => true
  | .base _ => true
  | _ => false

/-!
Transaction coordinator (pkg/database/transaction.go).  The request context
is modelled by the presence or absence of the transaction token stored under
TxKey; the pooled connection is modelled by the outcomes of its
BeginTxx/Commit/Rollback calls.  ExecuteInTransaction returns the error
result of the Go function together with the list of driver transaction calls
it performed (the panic path, which re-raises after rollback, is outside a
pure error-return embedding and is not needed by the claims below).
-/

/-- A request context: the value stored under TxKey, if any (tokens are
opaque; a Nat stands for the *sqlx.Tx pointer). -/
structure Ctx where
  tx : Option Nat
deriving DecidableEq

/-- GetTxFromContext. -/
def getTxFromContext (ctx : Ctx) : Option Nat := ctx.tx

/-- WithTransaction / context.WithValue(ctx, TxKey, tx). -/
def withTransaction (ctx : Ctx) (tok : Nat) : Ctx := { ctx with tx := some tok }

/-- Outcomes of the transaction calls the pooled connection would perform for
one unit of work: the result of BeginTxx, and the errors (if any) of Commit
and Rollback on the transaction it returns. -/
structure DBConn where
  beginResult : Except GoError Nat
  commitErr : Option GoError
  rollbackErr : Option GoError

/-- Driver transaction calls performed by the coordinator. -/
inductive TxEvent where
  | beginTx
  | commitTx
  | rollbackTx
deriving DecidableEq

/-- ExecuteInTransaction (the standalone function).  If the incoming context
already holds a token, the body runs directly on the unchanged context and no
driver transaction call happens.  Otherwise: begin; on body failure rollback
(combining a rollback failure with the original error via fmt.Errorf, which
formats the rollback error with %v and wraps the original with %w); on body
success commit, wrapping a commit failure via fmt.Errorf %w. -/
def executeInTransaction (ctx : Ctx) (db : DBConn) (fn : Ctx → Except GoError Unit) :
    Except GoError Unit × List TxEvent :=
  match getTxFromContext ctx with
  | some _ => (fn ctx, [])
  | none =>
    match db.beginResult with
    | .error e => (.error (.wrapf ("failed to begin transaction: " ++ e.message) e), [.beginTx])
    | .ok tok =>
      let txCtx := withTransaction ctx tok
      match fn txCtx with
      | .error e =>
        match db.rollbackErr with
        | some re =>
            (.error (.wrapf ("failed to rollback transaction: " ++ re.message ++
              " (original error: " ++ e.message ++ ")") e),
             [.beginTx, .rollbackTx])
        | none => (.error e, [.beginTx, .rollbackTx])
      | .ok _ =>
        match db.commitErr with
        | some ce =>
            (.error (.wrapf ("failed to commit transaction: " ++ ce.message) ce),
             [.beginTx, .commitTx])
        | none => (.ok (), [.beginTx, .commitTx])

/-!
User table and user repository (internal/user/repositories/userRepository).
A row/entity carries the columns of the users table that participate in the
claims; the timestamps do not influence any modelled behaviour and are
omitted.  The conditional UPDATE of Update matches
`WHERE id = :id AND version = :version - 1`; Exists runs
`SELECT EXISTS(SELECT 1 FROM users WHERE id = $1)`.
-/

/-- A user entity / stored row (userModel.User; Version is a Go int). -/
structure User where
  id : String := ""
  email : String := ""
  password : String := ""
  firstName : String := ""
  lastName : String := ""
  status : String := ""
  version : Int := 0
deriving DecidableEq

/-- Rows the conditional UPDATE of UserRepository.Update affects on a given
table state: those whose id equals the entity's id and whose stored version
equals the entity's version minus one. -/
def affectedByUpdate (t : List User) (e : User) : Nat :=
  (t.filter (fun r => r.id = e.id ∧ r.version = e.version - 1)).length

/-- Exists probe: whether some row has the given id. -/
def existsId (t : List User) (id : String) : Bool :=
  t.any (fun r => r.id = id)

/-- UserRepository.Update (part_002 of the source), success path of the
driver: execute the conditional UPDATE; if it affected no rows, probe
Exists(id) and return ErrNotFound when the row is absent, ErrOptimisticLock
when it is present; otherwise succeed (none). -/
def userRepoUpdate (t : List User) (e : User) : Option GoError :=
  let rowsAffected := affectedByUpdate t e
  if rowsAffected = 0 then
    if existsId t e.id = false then some ErrNotFound
    else some ErrOptimisticLock
  else none

/-!
Generic base repository (pkg/database/repository.go).  The execution of the
caller-supplied SQL is abstracted as an Except outcome: a driver error or the
affected-row count.
-/

/-- checkRowsAffected: zero affected rows becomes ErrNotFound. -/
def checkRowsAffected (rowsAffected : Int) : Option GoError :=
  if rowsAffected = 0 then some ErrNotFound else none

/-- BaseRepository.Update: propagate a driver error, otherwise apply
checkRowsAffected to the affected-row count. -/
def baseUpdate (execResult : Except GoError Int) : Option GoError :=
  match execResult with
  | .error e => some e
  | .ok n => checkRowsAffected n

/-- BaseRepository.Delete: same shape as Update. -/
def baseDelete (execResult : Except GoError Int) : Option GoError :=
  match execResult with
  | .error e => some e
  | .ok n => checkRowsAffected n

/-- The base Update applied to the users conditional-update query on a table
state (driver succeeding): the affected-row count is the number of rows the
conditional WHERE matches. -/
def baseUpdateOnUsers (t : List User) (e : User) : Option GoError :=
  baseUpdate (.ok (Int.ofNat (affectedByUpdate t e)))

/-!
Migration manager (pkg/database/migration_utils.go).  The migrations
directory is modelled as a list of (file name, file content) pairs over
character lists; ListMigrations parses file names exactly as the Go code
does (strings.Split on underscore, strconv.ParseUint of the first part,
suffix dispatch on ".up.sql"/".down.sql", grouping by version, keeping only
records with both files, sorting by version), and ValidateMigrations walks
the listed records in order checking contiguity, file existence and
non-comment SQL content.
-/

/-- A migrations directory: file names with their contents. -/
abbrev FileSys : Type := List (List Char × List Char)

/-- os.Stat/os.ReadFile on the modelled directory: the first entry with the
given name. -/
def lookupFile : FileSys → List Char → Option (List Char)
  | [], _ => none
  | (n, c) :: rest, name => if n = name then some c else lookupFile rest name

/-- Whitespace as trimmed by strings.TrimSpace (ASCII portion of
unicode.IsSpace). -/
def isSpaceChar (c : Char) : Bool :=
  c = ' ' || c = '\t' || c = '\n' || c = '\r' || c = Char.ofNat 11 || c = Char.ofNat 12

/-- strings.TrimSpace. -/
def trimSpaceL (s : List Char) : List Char :=
  ((s.dropWhile isSpaceChar).reverse.dropWhile isSpaceChar).reverse

/-- strings.Split with a one-character separator. -/
def goSplit (sep : Char) : List Char → List (List Char)
  | [] => [[]]
  | c :: rest =>
    if c = sep then [] :: goSplit sep rest
    else
      match goSplit sep rest with
      | [] => [[c]]
      | h :: t => (c :: h) :: t

/-- strings.HasSuffix. -/
def hasSuffixL (s suffix : List Char) : Bool := suffix.isSuffixOf s

/-- strings.TrimSuffix. -/
def trimSuffixL (s suffix : List Char) : List Char :=
  if hasSuffixL s suffix then s.take (s.length - suffix.length) else s

/-- strconv.ParseUint(s, 10, 32): digits only, non-empty, below 2^32. -/
def parseUintL (s : List Char) : Option Nat :=
  if s = [] then none
  else if s.all Char.isDigit then
    let n := s.foldl (fun acc c => acc * 10 + (c.toNat - 48)) 0
    if n < 4294967296 then some n else none
  else none

/-- containsSQL from the source: some line, after trimming, is neither empty
nor a comment starting with the marker. -/
def containsSQL (content : List Char) : Bool :=
  (goSplit '\n' content).any (fun line =>
    let t := trimSpaceL line
    !(t.isEmpty || ("--".data).isPrefixOf t))

/-- MigrationInfo from the source (zero values are empty strings). -/
structure MigrationInfo where
  version : Nat
  name : List Char := []
  upFile : List Char := []
  downFile : List Char := []
  description : List Char := []
deriving DecidableEq

/-- The map[uint]*MigrationInfo of ListMigrations as an association list:
apply a field update to the entry for a version, creating the entry (with
only Version set) when absent, as the Go code's nil check does. -/
def updateGroup (groups : List (Nat × MigrationInfo)) (v : Nat)
    (f : MigrationInfo → MigrationInfo) : List (Nat × MigrationInfo) :=
  match groups with
  | [] => [(v, f { version := v })]
  | (w, m) :: rest =>
    if w = v then (w, f m) :: rest else (w, m) :: updateGroup rest v f

/-- Trim the ".up.sql" suffix off the last name part (the Go loop only
rewrites the final element of parts[1:]). -/
def trimLastUp : List (List Char) → List (List Char)
  | [] => []
  | [x] => [if hasSuffixL x (".up.sql".data) then trimSuffixL x (".up.sql".data) else x]
  | x :: xs => x :: trimLastUp xs

/-- strings.Join(parts, "_"). -/
def joinUnderscore : List (List Char) → List Char
  | [] => []
  | [x] => x
  | x :: xs => x ++ '_' :: joinUnderscore xs

/-- Name extraction for an up file: parts[1:], last part stripped of
".up.sql", joined with underscores. -/
def extractUpName (restParts : List (List Char)) : List Char :=
  joinUnderscore (trimLastUp restParts)

/-- One iteration of the ListMigrations discovery loop on a file name:
ignore non-.sql files, names with fewer than two underscore parts, and
unparsable versions; otherwise record the name under its version, setting
UpFile (and Name) for ".up.sql", DownFile for ".down.sql", and nothing but
the entry itself for other .sql files. -/
def processFile (groups : List (Nat × MigrationInfo)) (fname : List Char) :
    List (Nat × MigrationInfo) :=
  if hasSuffixL fname (".sql".data) = false then groups
  else
    match goSplit '_' fname with
    | [] => groups
    | p0 :: restParts =>
      if restParts.isEmpty then groups
      else
        match parseUintL p0 with
        | none => groups
        | some v =>
          if hasSuffixL fname (".up.sql".data) then
            updateGroup groups v
              (fun m => { m with upFile := fname, name := extractUpName restParts })
          else if hasSuffixL fname (".down.sql".data) then
            updateGroup groups v (fun m => { m with downFile := fname })
          else
            updateGroup groups v (fun m => m)

/-- Ascending insertion by version (the Go code bubble-sorts; versions are
unique map keys, so any comparison sort gives the same list). -/
def insertByVersion (m : MigrationInfo) : List MigrationInfo → List MigrationInfo
  | [] => [m]
  | x :: xs => if m.version ≤ x.version then m :: x :: xs else x :: insertByVersion m xs

/-- Sort records by version. -/
def sortByVersion : List MigrationInfo → List MigrationInfo
  | [] => []
  | x :: xs => insertByVersion x (sortByVersion xs)

/-- ListMigrations: discover, keep only records with both files, sort. -/
def listMigrations (fs : FileSys) : List MigrationInfo :=
  let groups := fs.foldl (fun g f => processFile g f.1) []
  let complete := (groups.map Prod.snd).filter
    (fun m => !m.upFile.isEmpty && !m.downFile.isEmpty)
  sortByVersion complete

/-- The errors ValidateMigrations reports, one constructor per fmt.Errorf
site (the two read-failure sites cannot trigger in this model because the
stat check is the same lookup). -/
inductive MigrationError where
  | gap (expected found : Nat)
  | missingUp (file : List Char)
  | missingDown (file : List Char)
  | noSqlUp (file : List Char)
  | noSqlDown (file : List Char)
deriving DecidableEq

/-- The validation loop of ValidateMigrations over the listed records, with
the running index. -/
def validateRecords (fs : FileSys) : Nat → List MigrationInfo → Except MigrationError Unit
  | _, [] => .ok ()
  | i, m :: rest =>
    if m.version ≠ i + 1 then .error (.gap (i + 1) m.version)
    else
      match lookupFile fs m.upFile with
      | none => .error (.missingUp m.upFile)
      | some upContent =>
        match lookupFile fs m.downFile with
        | none => .error (.missingDown m.downFile)
        | some downContent =>
          if containsSQL upContent = false then .error (.noSqlUp m.upFile)
          else if containsSQL downContent = false then .error (.noSqlDown m.downFile)
          else validateRecords fs (i + 1) rest

/-- ValidateMigrations. -/
def validateMigrations (fs : FileSys) : Except MigrationError Unit :=
  validateRecords fs 0 (listMigrations fs)

/-- Versions are contiguous starting at i+1. -/
def contiguousFromB (i : Nat) : List MigrationInfo → Bool
  | [] => true
  | m :: rest => m.version == i + 1 && contiguousFromB (i + 1) rest

/-- Both script files of a record are present and contain SQL. -/
def goodRecord (fs : FileSys) (m : MigrationInfo) : Bool :=
  (match lookupFile fs m.upFile with
   | none => false
   | some c => containsSQL c) &&
  (match lookupFile fs m.downFile with
   | none => false
   | some c => containsSQL c)

/-- Up script exists and is comment/blank-only. -/
def upCommentOnly (fs : FileSys) (m : MigrationInfo) : Prop :=
  ∃ c, lookupFile fs m.upFile = some c ∧ containsSQL c = false

/-- Down script exists and is comment/blank-only. -/
def downCommentOnly (fs : FileSys) (m : MigrationInfo) : Prop :=
  ∃ c, lookupFile fs m.downFile = some c ∧ containsSQL c = false

/-- Every stored content of the up script contains SQL. -/
def upHasSql (fs : FileSys) (m : MigrationInfo) : Prop :=
  ∀ c, lookupFile fs m.upFile = some c → containsSQL c = true

/-- Every stored content of the down script contains SQL. -/
def downHasSql (fs : FileSys) (m : MigrationInfo) : Prop :=
  ∀ c, lookupFile fs m.downFile = some c → containsSQL c = true

/-- Invariant carried through the discovery fold: every recorded file name is
either still unset or present in the directory. -/
def entryFilesExist (fs : FileSys) (m : MigrationInfo) : Prop :=
  (m.upFile = [] ∨ (lookupFile fs m.upFile).isSome = true) ∧
  (m.downFile = [] ∨ (lookupFile fs m.downFile).isSome = true)

/-- Scenario directory of the spec: a complete pair for version 1 and only
the up file for version 3, with real SQL in every file. -/
def scenarioDir : FileSys :=
  [("001_init.up.sql".data, "CREATE TABLE users (id TEXT PRIMARY KEY);".data),
   ("001_init.down.sql".data, "DROP TABLE users;".data),
   ("003_add_col.up.sql".data, "ALTER TABLE users ADD COLUMN age INT;".data)]

/-- A directory with complete pairs for versions 1 and 3 and nothing for
version 2. -/
def gapDir : FileSys :=
  [("001_init.up.sql".data, "CREATE TABLE users (id TEXT PRIMARY KEY);".data),
   ("001_init.down.sql".data, "DROP TABLE users;".data),
   ("003_add_col.up.sql".data, "ALTER TABLE users ADD COLUMN age INT;".data),
   ("003_add_col.down.sql".data, "ALTER TABLE users DROP COLUMN age;".data)]

/-- A directory whose only record has a comment-only up script. -/
def commentDir : FileSys :=
  [("001_init.up.sql".data, "-- nothing here yet\n   \n".data),
   ("001_init.down.sql".data, "DROP TABLE users;".data)]

/-!
Filter building (internal/user/repositories/userRepository/utils.go).
buildWhereClause walks the four filter fields in source order — status
(exact), email, first name, last name (ILIKE with the value wrapped in
percent signs) — skipping empty fields, numbering placeholders with a
running argIndex that starts at 1, and joining conditions with AND.
-/

/-- buildWhereClause from the source, as a chain of the four conditional
appends (conditions, args, argIndex). -/
def buildWhereClause (f : User) : String × List String :=
  let s1 : List String × List String × Nat :=
    if f.status ≠ "" then (["status = $" ++ Nat.repr 1], [f.status], 2)
    else ([], [], 1)
  let s2 : List String × List String × Nat :=
    if f.email ≠ "" then
      (s1.1 ++ ["email ILIKE $" ++ Nat.repr s1.2.2], s1.2.1 ++ ["%" ++ f.email ++ "%"], s1.2.2 + 1)
    else s1
  let s3 : List String × List String × Nat :=
    if f.firstName ≠ "" then
      (s2.1 ++ ["first_name ILIKE $" ++ Nat.repr s2.2.2], s2.2.1 ++ ["%" ++ f.firstName ++ "%"], s2.2.2 + 1)
    else s2
  let s4 : List String × List String × Nat :=
    if f.lastName ≠ "" then
      (s3.1 ++ ["last_name ILIKE $" ++ Nat.repr s3.2.2], s3.2.1 ++ ["%" ++ f.lastName ++ "%"], s3.2.2 + 1)
    else s3
  (String.intercalate " AND " s4.1, s4.2.1)

/-- Spec-side description of the filter semantics: the conditions present
for a filter, before placeholder numbering — an exact status comparison and
case-insensitive partial matches for the textual fields, absent fields
contributing nothing. -/
def specItems (f : User) : List ((Nat → String) × String) :=
  (if f.status ≠ "" then [(fun i => "status = $" ++ Nat.repr i, f.status)] else []) ++
  (if f.email ≠ "" then [(fun i => "email ILIKE $" ++ Nat.repr i, "%" ++ f.email ++ "%")] else []) ++
  (if f.firstName ≠ "" then [(fun i => "first_name ILIKE $" ++ Nat.repr i, "%" ++ f.firstName ++ "%")] else []) ++
  (if f.lastName ≠ "" then [(fun i => "last_name ILIKE $" ++ Nat.repr i, "%" ++ f.lastName ++ "%")] else [])

/-- Number the present conditions consecutively starting at a given
placeholder index. -/
def numberFrom (i : Nat) : List ((Nat → String) × String) → List (String × String)
  | [] => []
  | (g, a) :: rest => (g i, a) :: numberFrom (i + 1) rest

/-- All suffixes of a character list, longest first. -/
def suffixList : List Char → List (List Char)
  | [] => [[]]
  | c :: t => (c :: t) :: suffixList t

/-- Modelled from the spec: PostgreSQL ILIKE pattern matching — external to
the repository, which only emits the ILIKE SQL — a percent sign matches any
character sequence (some suffix of the value matches the rest of the
pattern), an underscore any single character, other characters themselves;
comparison is case-insensitive via lowering both sides. -/
def likeMatch : List Char → List Char → Bool
  | [], s => s.isEmpty
  | '%' :: ps, s => (suffixList s).any (likeMatch ps)
  | '_' :: ps, s =>
    match s with
    | [] => false
    | _ :: t => likeMatch ps t
  | p :: ps, s =>
    match s with
    | [] => false
    | c :: t => p = c && likeMatch ps t

/-- Case-insensitive LIKE on strings. -/
def ilikeMatches (pat s : String) : Bool :=
  likeMatch (pat.data.map Char.toLower) (s.data.map Char.toLower)

/-!
Query builder (pkg/database/queryBuilder.go).  The builder state is the
accumulated query string and positional-argument list; each fluent call is
one constructor of QBOp, applied in sequence by a fold.  Select overwrites
the query string (the Go code assigns rather than appends there); every
other call appends, and Where/And/Or/Limit/Offset also append arguments.
-/

/-- A positional argument passed to the builder. -/
inductive SqlValue where
  | intVal (n : Int)
  | strVal (s : String)
deriving DecidableEq

/-- The builder state: accumulated query text and argument list. -/
structure QueryBuilder where
  query : String
  args : List SqlValue
deriving DecidableEq

/-- NewQueryBuilder. -/
def newQueryBuilder : QueryBuilder := { query := "", args := [] }

/-- One fluent call. -/
inductive QBOp where
  | selectCols (columns : String)
  | fromTable (table : String)
  | whereCond (condition : String) (args : List SqlValue)
  | andCond (condition : String) (args : List SqlValue)
  | orCond (condition : String) (args : List SqlValue)
  | orderBy (column direction : String)
  | limit (n : Int)
  | offset (n : Int)

/-- The effect of one call on the builder state, following the Go methods;
Limit and Offset emit the placeholder index len(args)+1 and then append
their value. -/
def applyOp (qb : QueryBuilder) : QBOp → QueryBuilder
  | .selectCols c => { qb with query := "SELECT " ++ c }
  | .fromTable t => { qb with query := qb.query ++ " FROM " ++ t }
  | .whereCond c a => { query := qb.query ++ " WHERE " ++ c, args := qb.args ++ a }
  | .andCond c a => { query := qb.query ++ " AND " ++ c, args := qb.args ++ a }
  | .orCond c a => { query := qb.query ++ " OR " ++ c, args := qb.args ++ a }
  | .orderBy c d => { qb with query := qb.query ++ " ORDER BY " ++ c ++ " " ++ d }
  | .limit n =>
    { query := qb.query ++ " LIMIT $" ++ Nat.repr (qb.args.length + 1),
      args := qb.args ++ [.intVal n] }
  | .offset n =>
    { query := qb.query ++ " OFFSET $" ++ Nat.repr (qb.args.length + 1),
      args := qb.args ++ [.intVal n] }

/-- A sequence of fluent calls applied to a builder. -/
def runOps (qb : QueryBuilder) (ops : List QBOp) : QueryBuilder :=
  ops.foldl applyOp qb

/-- Build(). -/
def buildQB (qb : QueryBuilder) : String × List SqlValue := (qb.query, qb.args)

/-!
Helper lemmas about errors.Is over the model.
-/

lemma errorsIsB_self (e : GoError) : errorsIsB e e = true := by
  unfold errorsIsB
  simp

lemma errorsIsB_wrapf_inner (m : String) (e : GoError) :
    errorsIsB (.wrapf m e) e = true := by
  unfold errorsIsB
  by_cases h : GoError.wrapf m e = e
  · simp [h]
  · simp [h, errorsIsB_self]

lemma errorsIsB_wrapf_sentinel (m : String) (inner : GoError) (k : SentinelKind) :
    errorsIsB (.wrapf m inner) (.sentinel k) = errorsIsB inner (.sentinel k) := by
  rw [errorsIsB]
  rw [if_neg (by simp)]

lemma errorsIsB_dbe_sentinel (op table code msg : String) (inner : GoError) (k : SentinelKind) :
    errorsIsB (.dbe op table code msg inner) (.sentinel k) = errorsIsB inner (.sentinel k) := by
  rw [errorsIsB]
  rw [if_neg (by simp)]

lemma errorsIsB_sentinel_sentinel (k k' : SentinelKind) :
    errorsIsB (.sentinel k) (.sentinel k') = decide (k = k') := by
  unfold errorsIsB
  by_cases h : k = k' <;> simp [h]

lemma errorsIsB_pq_sentinel (c d : String) (k : SentinelKind) :
    errorsIsB (.pqError c d) (.sentinel k) = false := by
  unfold errorsIsB
  rw [if_neg (by simp)]

lemma errorsIsB_base_sentinel (m : String) (k : SentinelKind) :
    errorsIsB (.base m) (.sentinel k) = false := by
  unfold errorsIsB
  rw [if_neg (by simp)]

lemma matchedKinds_dbe_duplicateKey (op table code msg : String) :
    matchedKinds (.dbe op table code msg ErrDuplicateKey) = [.duplicateKey] := by
  simp [matchedKinds, allKinds, List.filter, ErrDuplicateKey,
    errorsIsB_dbe_sentinel, errorsIsB_sentinel_sentinel]

lemma matchedKinds_dbe_foreignKey (op table code msg : String) :
    matchedKinds (.dbe op table code msg ErrForeignKeyViolation) = [.foreignKeyViolation] := by
  simp [matchedKinds, allKinds, List.filter, ErrForeignKeyViolation,
    errorsIsB_dbe_sentinel, errorsIsB_sentinel_sentinel]

lemma matchedKinds_dbe_invalidInput (op table code msg : String) :
    matchedKinds (.dbe op table code msg ErrInvalidInput) = [.invalidInput] := by
  simp [matchedKinds, allKinds, List.filter, ErrInvalidInput,
    errorsIsB_dbe_sentinel, errorsIsB_sentinel_sentinel]

lemma matchedKinds_dbe_pq (op table code msg c d : String) :
    matchedKinds (.dbe op table code msg (.pqError c d)) = [] := by
  simp [matchedKinds, allKinds, List.filter,
    errorsIsB_dbe_sentinel, errorsIsB_pq_sentinel]

lemma matchedKinds_dbe_base (op table code msg m : String) :
    matchedKinds (.dbe op table code msg (.base m)) = [] := by
  simp [matchedKinds, allKinds, List.filter,
    errorsIsB_dbe_sentinel, errorsIsB_base_sentinel]

lemma validateRecords_ok_iff (fs : FileSys) (l : List MigrationInfo) :
    ∀ i : Nat, validateRecords fs i l = .ok () ↔
      (contiguousFromB i l = true ∧ ∀ m ∈ l, goodRecord fs m = true) := by
  induction l with
  | nil =>
    intro i
    simp [validateRecords, contiguousFromB]
  | cons m rest ih =>
    intro i
    by_cases hv : m.version = i + 1
    · cases hu : lookupFile fs m.upFile with
      | none =>
        constructor
        · intro h
          exfalso
          simp [validateRecords, hv, hu] at h
        · rintro ⟨-, hall⟩
          exfalso
          have hgm := hall m (List.mem_cons_self m rest)
          simp [goodRecord, hu] at hgm
      | some cu =>
        cases hd : lookupFile fs m.downFile with
        | none =>
          constructor
          · intro h
            exfalso
            simp [validateRecords, hv, hu, hd] at h
          · rintro ⟨-, hall⟩
            exfalso
            have hgm := hall m (List.mem_cons_self m rest)
            simp [goodRecord, hu, hd] at hgm
        | some cd =>
          by_cases hcu : containsSQL cu = false
          · constructor
            · intro h
              exfalso
              simp [validateRecords, hv, hu, hd, hcu] at h
            · rintro ⟨-, hall⟩
              exfalso
              have hgm := hall m (List.mem_cons_self m rest)
              simp [goodRecord, hu, hd, hcu] at hgm
          · by_cases hcd : containsSQL cd = false
            · constructor
              · intro h
                exfalso
                simp [validateRecords, hv, hu, hd, hcu, hcd] at h
              · rintro ⟨-, hall⟩
                exfalso
                have hgm := hall m (List.mem_cons_self m rest)
                simp [goodRecord, hu, hd, hcd] at hgm
            · have hred : validateRecords fs i (m :: rest) = validateRecords fs (i + 1) rest := by
                simp [validateRecords, hv, hu, hd, hcu, hcd]
              rw [hred, ih (i + 1)]
              constructor
              · rintro ⟨hc, hall⟩
                refine ⟨by simp [contiguousFromB, hv, hc], ?_⟩
                intro m' hm'
                rcases List.mem_cons.mp hm' with rfl | hm'
                · simp [goodRecord, hu, hd]
                  exact ⟨by simpa using hcu, by simpa using hcd⟩
                · exact hall m' hm'
              · rintro ⟨hc, hall⟩
                refine ⟨?_, fun m' hm' => hall m' (List.mem_cons_of_mem m hm')⟩
                simp [contiguousFromB] at hc
                exact hc.2
    · constructor
      · intro h
        exfalso
        simp [validateRecords, hv] at h
      · rintro ⟨hc, -⟩
        exfalso
        simp [contiguousFromB, hv] at hc

lemma validateRecords_error_classify (fs : FileSys) (l : List MigrationInfo) :
    ∀ i : Nat, contiguousFromB i l = true →
    (∀ m ∈ l, (lookupFile fs m.upFile).isSome = true ∧ (lookupFile fs m.downFile).isSome = true) →
    ∀ e, validateRecords fs i l = .error e →
    ∃ m, m ∈ l ∧
      ((upCommentOnly fs m ∧ e = .noSqlUp m.upFile) ∨
       (downCommentOnly fs m ∧ e = .noSqlDown m.downFile)) := by
  induction l with
  | nil =>
    intro i _ _ e he
    simp [validateRecords] at he
  | cons m rest ih =>
    intro i hc hex e he
    simp only [contiguousFromB, Bool.and_eq_true, beq_iff_eq] at hc
    obtain ⟨hv, hcrest⟩ := hc
    obtain ⟨hu, hd⟩ := hex m (List.mem_cons_self m rest)
    obtain ⟨cu, hcu⟩ := Option.isSome_iff_exists.mp hu
    obtain ⟨cd, hcd⟩ := Option.isSome_iff_exists.mp hd
    by_cases hscu : containsSQL cu = false
    · simp [validateRecords, hv, hcu, hcd, hscu] at he
      exact ⟨m, List.mem_cons_self m rest, Or.inl ⟨⟨cu, hcu, hscu⟩, he.symm⟩⟩
    · by_cases hscd : containsSQL cd = false
      · simp [validateRecords, hv, hcu, hcd, hscu, hscd] at he
        exact ⟨m, List.mem_cons_self m rest, Or.inr ⟨⟨cd, hcd, hscd⟩, he.symm⟩⟩
      · have hred : validateRecords fs i (m :: rest) = validateRecords fs (i + 1) rest := by
          simp [validateRecords, hv, hcu, hcd, hscu, hscd]
        rw [hred] at he
        obtain ⟨m', hm', hcase⟩ :=
          ih (i + 1) hcrest (fun x hx => hex x (List.mem_cons_of_mem m hx)) e he
        exact ⟨m', List.mem_cons_of_mem m hm', hcase⟩

lemma lookupFile_isSome_of_mem (fs : FileSys) (n c : List Char) (h : (n, c) ∈ fs) :
    (lookupFile fs n).isSome = true := by
  induction fs with
  | nil => simp at h
  | cons p rest ih =>
    obtain ⟨pn, pc⟩ := p
    rcases List.mem_cons.mp h with heq | hmem
    · obtain ⟨rfl, rfl⟩ := Prod.mk.injEq .. ▸ And.intro (congrArg Prod.fst heq) (congrArg Prod.snd heq)
      simp [lookupFile]
    · by_cases he : pn = n
      · simp [lookupFile, he]
      · simp only [lookupFile, if_neg he]
        exact ih hmem

lemma updateGroup_entries (P : MigrationInfo → Prop) (g : List (Nat × MigrationInfo))
    (v : Nat) (f : MigrationInfo → MigrationInfo)
    (hg : ∀ x ∈ g, P x.2) (hf : ∀ m, P m → P (f m)) (hinit : P (f { version := v })) :
    ∀ x ∈ updateGroup g v f, P x.2 := by
  induction g with
  | nil =>
    intro x hx
    simp only [updateGroup] at hx
    rcases List.mem_cons.mp hx with rfl | hx
    · exact hinit
    · simp at hx
  | cons p rest ih =>
    intro x hx
    obtain ⟨w, m⟩ := p
    simp only [updateGroup] at hx
    by_cases hw : w = v
    · rw [if_pos hw] at hx
      rcases List.mem_cons.mp hx with rfl | hx
      · exact hf m (hg (w, m) (List.mem_cons_self _ _))
      · exact hg x (List.mem_cons_of_mem _ hx)
    · rw [if_neg hw] at hx
      rcases List.mem_cons.mp hx with rfl | hx
      · exact hg (w, m) (List.mem_cons_self _ _)
      · exact ih (fun y hy => hg y (List.mem_cons_of_mem _ hy)) x hx

lemma processFile_entries (fs : FileSys) (g : List (Nat × MigrationInfo)) (fname : List Char)
    (hname : (lookupFile fs fname).isSome = true)
    (hg : ∀ x ∈ g, entryFilesExist fs x.2) :
    ∀ x ∈ processFile g fname, entryFilesExist fs x.2 := by
  intro x hx
  unfold processFile at hx
  split at hx
  · exact hg x hx
  · split at hx
    · exact hg x hx
    · split at hx
      · exact hg x hx
      · split at hx
        · exact hg x hx
        · split at hx
          · refine updateGroup_entries (entryFilesExist fs) g _ _ hg ?_ ?_ x hx
            · intro m hm
              exact ⟨Or.inr hname, hm.2⟩
            · exact ⟨Or.inr hname, Or.inl rfl⟩
          · split at hx
            · refine updateGroup_entries (entryFilesExist fs) g _ _ hg ?_ ?_ x hx
              · intro m hm
                exact ⟨hm.1, Or.inr hname⟩
              · exact ⟨Or.inl rfl, Or.inr hname⟩
            · refine updateGroup_entries (entryFilesExist fs) g _ _ hg ?_ ?_ x hx
              · intro m hm
                exact hm
              · exact ⟨Or.inl rfl, Or.inl rfl⟩

lemma discover_entries (fs : FileSys) (fl : List (List Char × List Char)) :
    ∀ g : List (Nat × MigrationInfo),
    (∀ f ∈ fl, f ∈ fs) → (∀ x ∈ g, entryFilesExist fs x.2) →
    ∀ x ∈ fl.foldl (fun g f => processFile g f.1) g, entryFilesExist fs x.2 := by
  induction fl with
  | nil =>
    intro g _ hg
    simpa using hg
  | cons f rest ih =>
    intro g hfl hg
    simp only [List.foldl_cons]
    apply ih
    · intro f' hf'
      exact hfl f' (List.mem_cons_of_mem _ hf')
    · obtain ⟨fn, fc⟩ := f
      exact processFile_entries fs g fn
        (lookupFile_isSome_of_mem fs fn fc (hfl (fn, fc) (List.mem_cons_self _ _))) hg

lemma mem_insertByVersion (m x : MigrationInfo) (l : List MigrationInfo) :
    x ∈ insertByVersion m l ↔ x = m ∨ x ∈ l := by
  induction l with
  | nil => simp [insertByVersion]
  | cons y ys ih =>
    simp only [insertByVersion]
    by_cases h : m.version ≤ y.version
    · rw [if_pos h]
      simp [List.mem_cons]
    · rw [if_neg h]
      simp only [List.mem_cons, ih]
      tauto

lemma mem_sortByVersion (x : MigrationInfo) (l : List MigrationInfo) :
    x ∈ sortByVersion l ↔ x ∈ l := by
  induction l with
  | nil => simp [sortByVersion]
  | cons y ys ih =>
    simp [sortByVersion, mem_insertByVersion, ih]

lemma listMigrations_files_exist (fs : FileSys) (m : MigrationInfo)
    (hm : m ∈ listMigrations fs) :
    (lookupFile fs m.upFile).isSome = true ∧ (lookupFile fs m.downFile).isSome = true := by
  simp only [listMigrations] at hm
  rw [mem_sortByVersion] at hm
  have hmem := List.mem_of_mem_filter hm
  have hp := List.of_mem_filter hm
  obtain ⟨x, hx, hxm⟩ := List.mem_map.mp hmem
  have hinv := discover_entries fs fs [] (fun f hf => hf) (by simp) x hx
  rw [hxm] at hinv
  simp only [Bool.and_eq_true, Bool.not_eq_true', List.isEmpty_eq_false] at hp
  obtain ⟨hpu, hpd⟩ := hp
  constructor
  · rcases hinv.1 with h | h
    · exact absurd h hpu
    · exact h
  · rcases hinv.2 with h | h
    · exact absurd h hpd
    · exact h

lemma applyOp_args_append (qb : QueryBuilder) (op : QBOp) :
    ∃ t, (applyOp qb op).args = qb.args ++ t := by
  cases op <;> simp [applyOp]

lemma runOps_args_append (ops : List QBOp) :
    ∀ qb : QueryBuilder, ∃ t, (runOps qb ops).args = qb.args ++ t := by
  induction ops with
  | nil =>
    intro qb
    exact ⟨[], by simp [runOps]⟩
  | cons op rest ih =>
    intro qb
    obtain ⟨t1, h1⟩ := applyOp_args_append qb op
    obtain ⟨t2, h2⟩ := ih (applyOp qb op)
    refine ⟨t1 ++ t2, ?_⟩
    simp only [runOps, List.foldl_cons] at h2 ⊢
    rw [h2, h1, List.append_assoc]

/-- Claim C1: for every Update on the user repository whose conditional
UPDATE runs without a driver error, a positive affected-row count means
success; a zero count triggers the Exists probe, yielding ErrNotFound when
the row is absent and ErrOptimisticLock when it is present; in particular an
Update on a non-existent identifier never returns ErrOptimisticLock. -/
theorem userRepoUpdate_disambiguation (t : List User) (e : User) :
    (0 < affectedByUpdate t e → userRepoUpdate t e = none) ∧
    (affectedByUpdate t e = 0 → existsId t e.id = false → userRepoUpdate t e = some ErrNotFound) ∧
    (affectedByUpdate t e = 0 → existsId t e.id = true → userRepoUpdate t e = some ErrOptimisticLock) ∧
    (existsId t e.id = false → userRepoUpdate t e ≠ some ErrOptimisticLock) := by
  refine ⟨?_, ?_, ?_, ?_⟩
  · intro h
    have h0 : ¬ affectedByUpdate t e = 0 := by omega
    simp [userRepoUpdate, h0]
  · intro h0 hex
    simp [userRepoUpdate, h0, hex]
  · intro h0 hex
    simp [userRepoUpdate, h0, hex]
  · intro hex
    by_cases h0 : affectedByUpdate t e = 0
    · simp [userRepoUpdate, h0, hex, ErrNotFound, ErrOptimisticLock]
    · simp [userRepoUpdate, h0]

/-- Witness for C1: updating an empty table reports ErrNotFound. -/
theorem userRepoUpdate_disambiguation_witness :
    userRepoUpdate [] { id := "u1", version := 2 } = some ErrNotFound :=
  (userRepoUpdate_disambiguation [] { id := "u1", version := 2 }).2.1 (by decide) (by decide)

/-- Claim C2: when the incoming carrier already holds a transaction token,
ExecuteInTransaction invokes the body directly with the unchanged carrier and
performs no begin/commit/rollback; driver transaction calls happen only when
the incoming carrier holds no token. -/
theorem executeInTransaction_flattened (ctx : Ctx) (db : DBConn) (fn : Ctx → Except GoError Unit) :
    ((getTxFromContext ctx).isSome = true → executeInTransaction ctx db fn = (fn ctx, [])) ∧
    ((executeInTransaction ctx db fn).2 ≠ [] → getTxFromContext ctx = none) := by
  cases hctx : ctx.tx with
  | some t =>
      constructor
      · intro _
        simp [executeInTransaction, getTxFromContext, hctx]
      · intro hne
        exact absurd (by simp [executeInTransaction, getTxFromContext, hctx]) hne
  | none =>
      constructor
      · intro hs
        simp [getTxFromContext, hctx] at hs
      · intro _
        simp [getTxFromContext, hctx]

/-- Witness for C2: with a token in the carrier the body's result is passed
through and the event list is empty. -/
theorem executeInTransaction_flattened_witness :
    executeInTransaction ⟨some 5⟩ ⟨.ok 9, some (.base "c"), some (.base "r")⟩
        (fun _ => .error (.base "inner")) = (.error (.base "inner"), []) :=
  (executeInTransaction_flattened ⟨some 5⟩ ⟨.ok 9, some (.base "c"), some (.base "r")⟩
    (fun _ => .error (.base "inner"))).1 rfl

/-- Claim C3: when the body of a fresh transaction fails, a successful
rollback propagates the body's error unchanged; a failed rollback returns an
error whose message records the rollback failure and whose wrap chain keeps
the original error (kind-based equality with the original error still
holds), so the rollback error does not replace it. -/
theorem executeInTransaction_rollback_keeps_cause (ctx : Ctx) (db : DBConn)
    (fn : Ctx → Except GoError Unit) (tok : Nat) (e : GoError)
    (hctx : getTxFromContext ctx = none) (hb : db.beginResult = .ok tok)
    (hf : fn (withTransaction ctx tok) = .error e) :
    (db.rollbackErr = none → executeInTransaction ctx db fn = (.error e, [.beginTx, .rollbackTx])) ∧
    (∀ re, db.rollbackErr = some re →
      executeInTransaction ctx db fn =
        (.error (.wrapf ("failed to rollback transaction: " ++ re.message ++
            " (original error: " ++ e.message ++ ")") e),
         [.beginTx, .rollbackTx]) ∧
      errorsIsB (GoError.wrapf ("failed to rollback transaction: " ++ re.message ++
          " (original error: " ++ e.message ++ ")") e) e = true) := by
  constructor
  · intro hrb
    simp [executeInTransaction, hctx, hb, hf, hrb]
  · intro re hrb
    refine ⟨?_, errorsIsB_wrapf_inner _ _⟩
    simp [executeInTransaction, hctx, hb, hf, hrb]

/-- Witness for C3: a failing body with a failing rollback yields an error
combining both messages and wrapping the body's error. -/
theorem executeInTransaction_rollback_keeps_cause_witness :
    executeInTransaction ⟨none⟩ ⟨.ok 1, none, some (.base "rollback refused")⟩
        (fun _ => .error (.base "boom")) =
      (.error (.wrapf "failed to rollback transaction: rollback refused (original error: boom)"
          (.base "boom")),
       [.beginTx, .rollbackTx]) :=
  ((executeInTransaction_rollback_keeps_cause ⟨none⟩
      ⟨.ok 1, none, some (.base "rollback refused")⟩
      (fun _ => .error (.base "boom")) 1 (.base "boom") rfl rfl rfl).2
    (.base "rollback refused") rfl).1

/-- Claim C4, counterexample: a commit failure is returned as a plain
fmt.Errorf wrap of the commit error; kind-based equality with
ErrTransactionFailed does not hold on the result. -/
theorem executeInTransaction_commit_not_transactionFailed :
    (executeInTransaction ⟨none⟩ ⟨.ok 1, some (.base "disk full"), none⟩ (fun _ => .ok ())).1 =
      .error (.wrapf "failed to commit transaction: disk full" (.base "disk full")) ∧
    errorsIsB (.wrapf "failed to commit transaction: disk full" (.base "disk full"))
      ErrTransactionFailed = false :=
  ⟨rfl, rfl⟩

/-- Claim C4 as amended: when the body succeeds the coordinator commits, and
a commit failure is returned as an error wrapping the commit error (message
prefixed with the commit-failure note); the result satisfies kind-based
equality with ErrTransactionFailed only when the commit error itself does —
the code never attaches the ErrTransactionFailed sentinel. -/
theorem executeInTransaction_commit_wrap (ctx : Ctx) (db : DBConn)
    (fn : Ctx → Except GoError Unit) (tok : Nat) (ce : GoError)
    (hctx : getTxFromContext ctx = none) (hb : db.beginResult = .ok tok)
    (hf : fn (withTransaction ctx tok) = .ok ()) (hcommit : db.commitErr = some ce) :
    executeInTransaction ctx db fn =
      (.error (.wrapf ("failed to commit transaction: " ++ ce.message) ce),
       [.beginTx, .commitTx]) ∧
    errorsIsB (GoError.wrapf ("failed to commit transaction: " ++ ce.message) ce)
        ErrTransactionFailed =
      errorsIsB ce ErrTransactionFailed := by
  constructor
  · simp [executeInTransaction, hctx, hb, hf, hcommit]
  · exact errorsIsB_wrapf_sentinel _ _ _

/-- Witness for the amended C4. -/
theorem executeInTransaction_commit_wrap_witness :
    executeInTransaction ⟨none⟩ ⟨.ok 1, some (.base "io timeout"), none⟩ (fun _ => .ok ()) =
      (.error (.wrapf "failed to commit transaction: io timeout" (.base "io timeout")),
       [.beginTx, .commitTx]) :=
  (executeInTransaction_commit_wrap ⟨none⟩ ⟨.ok 1, some (.base "io timeout"), none⟩
    (fun _ => .ok ()) 1 (.base "io timeout") rfl rfl rfl rfl).1

/-- Claim C5, counterexample: the sql.ErrNoRows branch returns the bare
ErrNotFound sentinel, which is not a DatabaseError and hence preserves
neither the operation nor the table nor a vendor code. -/
theorem handleError_noRows_loses_context :
    handleError "GetByID" (some .sqlNoRows) = some ErrNotFound ∧
    isDbeB ErrNotFound = false :=
  ⟨rfl, rfl⟩

/-- Claim C5 as amended: handleError maps every native driver error to
exactly one sentinel kind, checked in order — 23505 to DuplicateKey (with a
distinct message when the constraint detail mentions email), 23503 to
ForeignKeyViolation, 23514 to InvalidInput, the no-rows sentinel to
NotFound, everything else to a generic DatabaseError wrapping the cause and
matching none of the listed kinds.  Operation, table and vendor code are
preserved on the constraint-violation branches; the no-rows branch returns
the bare NotFound sentinel without them, and the fallback DatabaseError
preserves operation and table but carries no vendor code. -/
theorem handleError_translation (op : String) (e : GoError)
    (hn : isNativeDriver e = true) :
    (∀ code detail, e = .pqError code detail →
      (code = "23505" →
        handleError op (some e) =
          some (.dbe op "users" "23505"
            (if strContains detail "email" then "email already exists"
             else "duplicate key violation") ErrDuplicateKey) ∧
        matchedKinds (.dbe op "users" "23505"
            (if strContains detail "email" then "email already exists"
             else "duplicate key violation") ErrDuplicateKey) = [.duplicateKey]) ∧
      (code = "23503" →
        handleError op (some e) =
          some (.dbe op "users" "23503" "foreign key constraint violation"
            ErrForeignKeyViolation) ∧
        matchedKinds (.dbe op "users" "23503" "foreign key constraint violation"
            ErrForeignKeyViolation) = [.foreignKeyViolation]) ∧
      (code = "23514" →
        handleError op (some e) =
          some (.dbe op "users" "23514" "check constraint violation" ErrInvalidInput) ∧
        matchedKinds (.dbe op "users" "23514" "check constraint violation"
            ErrInvalidInput) = [.invalidInput]) ∧
      (code ≠ "23505" → code ≠ "23503" → code ≠ "23514" →
        handleError op (some e) = some (.dbe op "users" "" "" e) ∧
        matchedKinds (.dbe op "users" "" "" e) = [])) ∧
    (e = .sqlNoRows →
      handleError op (some e) = some ErrNotFound ∧
      matchedKinds ErrNotFound = [.notFound]) ∧
    (∀ m, e = .base m →
      handleError op (some e) = some (.dbe op "users" "" "" e) ∧
      matchedKinds (.dbe op "users" "" "" e) = []) := by
  refine ⟨?_, ?_, ?_⟩
  · intro code detail he
    subst he
    refine ⟨?_, ?_, ?_, ?_⟩
    · intro hc
      subst hc
      refine ⟨?_, matchedKinds_dbe_duplicateKey _ _ _ _⟩
      by_cases hd : strContains detail "email" = true <;>
        simp [handleError, NewDatabaseErrorWithCode, hd]
    · intro hc
      subst hc
      exact ⟨by simp [handleError, NewDatabaseErrorWithCode], matchedKinds_dbe_foreignKey _ _ _ _⟩
    · intro hc
      subst hc
      exact ⟨by simp [handleError, NewDatabaseErrorWithCode], matchedKinds_dbe_invalidInput _ _ _ _⟩
    · intro h1 h2 h3
      exact ⟨by simp [handleError, NewDatabaseError, h1, h2, h3], matchedKinds_dbe_pq _ _ _ _ _ _⟩
  · intro he
    subst he
    exact ⟨rfl, by decide⟩
  · intro m he
    subst he
    exact ⟨rfl, matchedKinds_dbe_base _ _ _ _ _⟩

/-- Witness for the amended C5: a unique-violation pq error whose detail
mentions email maps to the email-specific DuplicateKey DatabaseError. -/
theorem handleError_translation_witness :
    handleError "Create" (some (.pqError "23505" "Key (email)=(a@b.c) already exists.")) =
      some (.dbe "Create" "users" "23505" "email already exists" ErrDuplicateKey) ∧
    matchedKinds (.dbe "Create" "users" "23505" "email already exists" ErrDuplicateKey) =
      [.duplicateKey] :=
  ((handleError_translation "Create" (.pqError "23505" "Key (email)=(a@b.c) already exists.")
      rfl).1 "23505" "Key (email)=(a@b.c) already exists." rfl).1 rfl

/-- Claim C10: the generic base repository turns a zero affected-row count —
and only that — into ErrNotFound for both Update and Delete, never into
ErrOptimisticLock; a version-mismatched conditional update through the base
Update therefore surfaces as NotFound, while the user repository's shadowing
Update reports ErrOptimisticLock on the same table state. -/
theorem baseRepository_zero_rows_notFound :
    (∀ n : Int, (baseUpdate (.ok n) = some ErrNotFound ↔ n = 0) ∧
      baseUpdate (.ok n) ≠ some ErrOptimisticLock) ∧
    (∀ n : Int, (baseDelete (.ok n) = some ErrNotFound ↔ n = 0) ∧
      baseDelete (.ok n) ≠ some ErrOptimisticLock) ∧
    (∀ (t : List User) (e : User), existsId t e.id = true → affectedByUpdate t e = 0 →
      baseUpdateOnUsers t e = some ErrNotFound ∧
      userRepoUpdate t e = some ErrOptimisticLock) := by
  refine ⟨?_, ?_, ?_⟩
  · intro n
    by_cases h : n = 0 <;>
      simp [baseUpdate, checkRowsAffected, h, ErrNotFound, ErrOptimisticLock]
  · intro n
    by_cases h : n = 0 <;>
      simp [baseDelete, checkRowsAffected, h, ErrNotFound, ErrOptimisticLock]
  · intro t e hex h0
    constructor
    · simp [baseUpdateOnUsers, baseUpdate, checkRowsAffected, h0]
    · simp [userRepoUpdate, h0, hex]

/-- Witness for C10: a stored row at version 1 updated with entity version 3
(stored version does not equal 2) is NotFound for the base layer and
OptimisticLock for the user repository. -/
theorem baseRepository_zero_rows_notFound_witness :
    baseUpdateOnUsers [{ id := "u1", version := 1 }] { id := "u1", version := 3 } =
      some ErrNotFound ∧
    userRepoUpdate [{ id := "u1", version := 1 }] { id := "u1", version := 3 } =
      some ErrOptimisticLock :=
  baseRepository_zero_rows_notFound.2.2 [{ id := "u1", version := 1 }]
    { id := "u1", version := 3 } (by decide) (by decide)

/-- Claim C6, counterexample: on the spec's scenario directory
(001 pair complete, 003 with only an up file, no 002 files),
ValidateMigrations succeeds instead of failing: the incomplete version-3
record is dropped by ListMigrations, so the gap check sees only version 1. -/
theorem validateMigrations_scenario_accepts :
    validateMigrations scenarioDir = .ok () ∧
    (listMigrations scenarioDir).map MigrationInfo.version = [1] :=
  ⟨rfl, rfl⟩

/-- Claim C6 as amended: ValidateMigrations fails when the versions of the
listed records — the complete up/down pairs only — are not contiguous from
1; a version slot missing one of the two files is excluded from
ListMigrations and is invisible to the gap check, so the scenario directory
validates successfully. -/
theorem validateMigrations_gap_on_listed (fs : FileSys)
    (h : contiguousFromB 0 (listMigrations fs) = false) :
    validateMigrations fs ≠ .ok () := by
  intro hok
  have hiff := (validateRecords_ok_iff fs (listMigrations fs) 0).mp hok
  rw [hiff.1] at h
  exact Bool.true_eq_false ▸ h

/-- Witness for the amended C6: complete pairs at versions 1 and 3 with no
version 2 make validation fail. -/
theorem validateMigrations_gap_on_listed_witness :
    contiguousFromB 0 (listMigrations gapDir) = false ∧
    validateMigrations gapDir ≠ .ok () :=
  ⟨rfl, validateMigrations_gap_on_listed gapDir rfl⟩

/-- Claim C7: a listed record whose up or down script is blank/comment-only
makes ValidateMigrations fail; when additionally the listed versions are
contiguous from 1, every reported error is a no-SQL error naming the
offending script file of a listed record; and when versions are contiguous
from 1 and every listed record's scripts contain a non-blank non-comment
line, ValidateMigrations succeeds. -/
theorem validateMigrations_comment_only (fs : FileSys) :
    (∀ m ∈ listMigrations fs, upCommentOnly fs m ∨ downCommentOnly fs m →
      ∃ e, validateMigrations fs = .error e) ∧
    ((contiguousFromB 0 (listMigrations fs) = true ∧
      ∀ m ∈ listMigrations fs, upHasSql fs m ∧ downHasSql fs m) →
      validateMigrations fs = .ok ()) ∧
    (contiguousFromB 0 (listMigrations fs) = true →
      ∀ e, validateMigrations fs = .error e →
      ∃ m, m ∈ listMigrations fs ∧
        ((upCommentOnly fs m ∧ e = .noSqlUp m.upFile) ∨
         (downCommentOnly fs m ∧ e = .noSqlDown m.downFile))) := by
  refine ⟨?_, ?_, ?_⟩
  · intro m hm hbad
    cases hres : validateMigrations fs with
    | error e => exact ⟨e, rfl⟩
    | ok u =>
      exfalso
      cases u
      have hall := ((validateRecords_ok_iff fs (listMigrations fs) 0).mp hres).2
      have hgm := hall m hm
      rcases hbad with ⟨c, hc, hnc⟩ | ⟨c, hc, hnc⟩ <;>
        simp [goodRecord, hc, hnc] at hgm
  · rintro ⟨hc, hall⟩
    apply (validateRecords_ok_iff fs (listMigrations fs) 0).mpr
    refine ⟨hc, ?_⟩
    intro m hm
    obtain ⟨hu, hd⟩ := listMigrations_files_exist fs m hm
    obtain ⟨cu, hcu⟩ := Option.isSome_iff_exists.mp hu
    obtain ⟨cd, hcd⟩ := Option.isSome_iff_exists.mp hd
    have h1 := (hall m hm).1 cu hcu
    have h2 := (hall m hm).2 cd hcd
    simp [goodRecord, hcu, hcd, h1, h2]
  · intro hc e he
    exact validateRecords_error_classify fs (listMigrations fs) 0 hc
      (fun m hm => listMigrations_files_exist fs m hm) e he

/-- Witness for C7: the record of commentDir has a comment-only up script,
so validation reports an error there. -/
theorem validateMigrations_comment_only_witness :
    ∃ e, validateMigrations commentDir = .error e :=
  (validateMigrations_comment_only commentDir).1
    { version := 1, name := "init".data, upFile := "001_init.up.sql".data,
      downFile := "001_init.down.sql".data }
    (by decide)
    (Or.inl ⟨"-- nothing here yet\n   \n".data, rfl, rfl⟩)

/-- Claim C8: the WHERE clause built for List and Count consists of exactly
one condition per non-empty filter field — exact equality for status,
case-insensitive substring match (ILIKE over the percent-wrapped value) for
the textual fields — with consecutive placeholder numbers, joined with AND;
and under ILIKE semantics the pattern built for email "doe" matches
alice@doe.com but not bob@example.com. -/
theorem buildWhereClause_filter_semantics (f : User) :
    buildWhereClause f =
      (String.intercalate " AND " ((numberFrom 1 (specItems f)).map Prod.fst),
       (numberFrom 1 (specItems f)).map Prod.snd) ∧
    buildWhereClause { email := "doe" } = ("email ILIKE $1", ["%doe%"]) ∧
    ilikeMatches "%doe%" "alice@doe.com" = true ∧
    ilikeMatches "%doe%" "bob@example.com" = false := by
  refine ⟨?_, by decide, by decide, by decide⟩
  by_cases h1 : f.status = "" <;> by_cases h2 : f.email = "" <;>
    by_cases h3 : f.firstName = "" <;> by_cases h4 : f.lastName = "" <;>
    simp [buildWhereClause, specItems, numberFrom, h1, h2, h3, h4, String.intercalate]

/-- Claim C9: a Limit or Offset call arriving when the argument list has
length k emits placeholder index k+1 and appends its value, and in the pair
Build() returns the value sits at 1-based position k+1 — the i-th argument
corresponds to placeholder i for every builder-emitted placeholder — no
matter what arguments earlier Where/And/Or calls appended (pre) and what
calls follow (post). -/
theorem queryBuilder_placeholder_alignment (pre post : List QBOp) (n : Int) :
    (applyOp (runOps newQueryBuilder pre) (.limit n) =
      { query := (runOps newQueryBuilder pre).query ++ " LIMIT $" ++
          Nat.repr ((runOps newQueryBuilder pre).args.length + 1),
        args := (runOps newQueryBuilder pre).args ++ [.intVal n] } ∧
     (buildQB (runOps newQueryBuilder (pre ++ .limit n :: post))).2[
        (runOps newQueryBuilder pre).args.length]? = some (.intVal n)) ∧
    (applyOp (runOps newQueryBuilder pre) (.offset n) =
      { query := (runOps newQueryBuilder pre).query ++ " OFFSET $" ++
          Nat.repr ((runOps newQueryBuilder pre).args.length + 1),
        args := (runOps newQueryBuilder pre).args ++ [.intVal n] } ∧
     (buildQB (runOps newQueryBuilder (pre ++ .offset n :: post))).2[
        (runOps newQueryBuilder pre).args.length]? = some (.intVal n)) := by
  constructor
  · refine ⟨rfl, ?_⟩
    have hsplit : runOps newQueryBuilder (pre ++ .limit n :: post) =
        runOps (applyOp (runOps newQueryBuilder pre) (.limit n)) post := by
      simp [runOps, List.foldl_append]
    rw [hsplit]
    obtain ⟨t, ht⟩ := runOps_args_append post (applyOp (runOps newQueryBuilder pre) (.limit n))
    simp only [buildQB]
    rw [ht]
    simp only [applyOp]
    rw [List.append_assoc, List.getElem?_append_right (Nat.le_refl _)]
    simp
  · refine ⟨rfl, ?_⟩
    have hsplit : runOps newQueryBuilder (pre ++ .offset n :: post) =
        runOps (applyOp (runOps newQueryBuilder pre) (.offset n)) post := by
      simp [runOps, List.foldl_append]
    rw [hsplit]
    obtain ⟨t, ht⟩ := runOps_args_append post (applyOp (runOps newQueryBuilder pre) (.offset n))
    simp only [buildQB]
    rw [ht]
    simp only [applyOp]
    rw [List.append_assoc, List.getElem?_append_right (Nat.le_refl _)]
    simp
